import Mathlib

/-!
Verification of the FinOpti-AI analysis pipeline (`backend.py`), user store
(`database.py`) and password helpers (`auth.py`).

The pandas dataframe manipulated by `run_analysis` is embedded as a list of
rows; spreadsheet cells are embedded as `Cell` (a numeric value, a non-numeric
text value, or a missing value / NaN).  Monetary amounts are embedded as `ℚ`.
External library calls (pmdarima's `auto_arima`, scipy's SLSQP `minimize`,
sqlite, bcrypt) are not part of the repository; each is embedded as a function
parameter or as a definition modelling the library's documented contract, and
theorems that depend on the library's behaviour state that contract as an
explicit hypothesis.
-/

/-- A spreadsheet cell: a numeric value, non-numeric text, or missing (NaN). -/
inductive Cell where
  | missing : Cell
  | text : String → Cell
  | num : ℚ → Cell
deriving DecidableEq, Repr

/-- Embeds `pd.to_numeric(_, errors="coerce")` on one cell: numbers survive,
text and missing cells become NaN (`none`). -/
def coerceNum : Cell → Option ℚ
  | Cell.num q => some q
  | _ => none

/-- Embeds `pd.to_numeric(_, errors="coerce").fillna(0)` on one cell. -/
def coerce0 (c : Cell) : ℚ := (coerceNum c).getD 0

/-- Embeds `.astype(int)` on a numeric pandas value: truncation toward zero. -/
def ratTrunc (q : ℚ) : ℤ := Int.tdiv q.num q.den

/-- Embeds `s.strip()` on a Python string, embedded as a character list: drop
leading and trailing whitespace. -/
def trimChars (l : List Char) : List Char :=
  ((l.dropWhile Char.isWhitespace).reverse.dropWhile Char.isWhitespace).reverse

/-- Embeds `s.strip().lower()` as applied to institution names in `run_analysis`.
Python strings are embedded as character lists. -/
def normName (s : List Char) : List Char := (trimChars s).map Char.toLower

/-- One row of the input spreadsheet (`Banks`, `Year`,
`Capital Expenditure`, `Operating Expenditure`). -/
structure RawRow where
  bank : List Char
  year : Cell
  capex : Cell
  opex : Cell
deriving DecidableEq, Repr

/-- A row after `Year` has been coerced to a number and cast to int;
non-numeric years have been dropped. -/
structure NumRow where
  bank : List Char
  year : ℤ
  capex : Cell
  opex : Cell
deriving DecidableEq, Repr

/-- A historical row after both expenditure columns are coerced
to numeric and NaNs filled with 0. -/
structure HistRow where
  year : ℤ
  capex : ℚ
  opex : ℚ
deriving DecidableEq, Repr

/-- One row of the grouped table: a year with summed expenditures. -/
structure GroupedRow where
  year : ℤ
  capex : ℚ
  opex : ℚ
deriving DecidableEq, Repr

/-- Embeds `df['Year'].ffill()`: each missing `Year` cell takes the most recent
non-missing value above it (`acc`); leading missing cells stay missing. -/
def ffillYear (acc : Cell) : List RawRow → List RawRow
  | [] => []
  | r :: rs =>
      match r.year with
      | Cell.missing => { r with year := acc } :: ffillYear acc rs
      | y => r :: ffillYear y rs

/-- Lines 110-112 of `backend.py`: coerce `Year` to numeric, drop rows
whose year is NaN, cast to int. -/
def dropCoerceYear (rows : List RawRow) : List NumRow :=
  rows.filterMap fun r =>
    (coerceNum r.year).map fun q => ⟨r.bank, ratTrunc q, r.capex, r.opex⟩

/-- Line 113 of `backend.py`: rows of the selected institution, compared
case- and whitespace-insensitively (`bank_df`). -/
def bankRowsOf (table : List RawRow) (bankName : List Char) : List NumRow :=
  (dropCoerceYear (ffillYear Cell.missing table)).filter fun r =>
    normName r.bank == normName bankName

/-- Lines 116-119 of `backend.py`: keep years `≤ current_year - 1` and coerce
the expenditure columns to numeric with NaN filled by 0 (`historical_df`). -/
def histRowsOf (table : List RawRow) (bankName : List Char) (currentYear : ℤ) :
    List HistRow :=
  ((bankRowsOf table bankName).filter fun r =>
      decide (r.year ≤ currentYear - 1)).map fun r =>
    ⟨r.year, coerce0 r.capex, coerce0 r.opex⟩

/-- Line 120 of `backend.py`: group by `Year`, summing both expenditure
columns within each year (`grouped`). -/
def groupByYear (rows : List HistRow) : List GroupedRow :=
  ((rows.map (·.year)).dedup).map fun y =>
    ⟨y, ((rows.filter fun r => decide (r.year = y)).map (·.capex)).sum,
        ((rows.filter fun r => decide (r.year = y)).map (·.opex)).sum⟩

/-- The grouped historical table built by `run_analysis` from the raw input. -/
def groupedOf (table : List RawRow) (bankName : List Char) (currentYear : ℤ) :
    List GroupedRow :=
  groupByYear (histRowsOf table bankName currentYear)

/-- Embeds `grouped['Year'].max()` (0 on an empty table, which `run_analysis`
never reaches thanks to the length check). -/
def listMaxInt : List ℤ → ℤ
  | [] => 0
  | [y] => y
  | y :: ys => max y (listMaxInt ys)

/-- Embeds `forecast_expenditure` (`backend.py` lines 24-33): coerce the series to
numeric and drop NaNs; with fewer than 3 points raise `ValueError`, otherwise
return the `auto_arima` point forecasts.  The `auto_arima`/`predict` call is
external to the repository and is embedded as the parameter `fc`, mapping the
cleaned historical series and the horizon to the list of point forecasts. -/
def forecast_expenditure (fc : List ℚ → ℕ → List ℚ) (series : List Cell)
    (periods : ℕ) : Except String (List ℚ) :=
  let s := series.filterMap coerceNum
  if s.length < 3 then
    Except.error "Not enough historical points to forecast (need at least 3)."
  else
    Except.ok (fc s periods)

/-- One row of `pred_df`: a forecast year with its two point forecasts. -/
structure PredRow where
  year : ℤ
  fcCapex : ℚ
  fcOpex : ℚ
deriving DecidableEq, Repr

/-- One row of the output of `optimize_expenditures`: the input row plus the
two added columns `Optimized_CapEx` and `Optimized_OpEx`. -/
structure OptRow where
  year : ℤ
  fcCapex : ℚ
  fcOpex : ℚ
  optCapex : ℚ
  optOpex : ℚ
deriving DecidableEq, Repr

/-- Embeds the `pd.DataFrame` constructor of line 131:
rows are formed positionally from the three columns. -/
def mkPredRows : List ℤ → List ℚ → List ℚ → List PredRow
  | y :: ys, c :: cs, o :: os => ⟨y, c, o⟩ :: mkPredRows ys cs os
  | _, _, _ => []

/-- The per-year objective of `optimize_expenditures` (`backend.py`
lines 40-43). -/
def objective (inflationRate alpha beta gamma : ℚ) (predCapex predOpex : ℚ)
    (capex opex : ℚ) : ℚ :=
  (alpha * capex + beta * opex) * (1 + inflationRate) +
    gamma * ((capex - predCapex) ^ 2 + (opex - predOpex) ^ 2)

/-- The feasible set of the per-year problem: the two inequality constraints
of line 44 and the `(0, None)` bounds of line 45. -/
def Feasible (predCapex predOpex capex opex : ℚ) : Prop :=
  0.8 * predCapex ≤ capex ∧ 0.7 * predOpex ≤ opex ∧ 0 ≤ capex ∧ 0 ≤ opex

/-- A solver (scipy's SLSQP `minimize`, external to the repository) reports
for each `(pred_capex, pred_opex)` either `some (capex, opex)` — success with
a finite point, i.e. `result.success and np.all(np.isfinite(result.x))` — or
`none` for failure or a non-finite point. -/
def SolverFeasible (solver : ℚ → ℚ → Option (ℚ × ℚ)) : Prop :=
  ∀ p q c o, solver p q = some (c, o) → Feasible p q c o

/-- SLSQP's contract on this smooth convex program at the default weights of
`optimize_expenditures` (inflation 3%, α = β = 0.5, γ = 0.001): a reported
solution is feasible and minimizes the objective over the feasible set. -/
def SolverOptimal (solver : ℚ → ℚ → Option (ℚ × ℚ)) : Prop :=
  ∀ p q c o, solver p q = some (c, o) →
    Feasible p q c o ∧
    ∀ c' o', Feasible p q c' o' →
      objective 0.03 0.5 0.5 0.001 p q c o ≤ objective 0.03 0.5 0.5 0.001 p q c' o'

/-- Lines 45-49 of `backend.py`: the optimized point for one forecast year —
the solver's point on success with a finite result, the constraint-floor pair
`(0.8 * pred_capex, 0.7 * pred_opex)` otherwise. -/
def optPoint (solver : ℚ → ℚ → Option (ℚ × ℚ)) (predCapex predOpex : ℚ) :
    ℚ × ℚ :=
  match solver predCapex predOpex with
  | some x => x
  | none => (0.8 * predCapex, 0.7 * predOpex)

/-- Embeds `optimize_expenditures` (`backend.py` lines 36-54): per-row optimization;
the output is a copy of the input frame with the two optimized columns
appended. -/
def optimize_expenditures (solver : ℚ → ℚ → Option (ℚ × ℚ))
    (df : List PredRow) : List OptRow :=
  df.map fun r =>
    ⟨r.year, r.fcCapex, r.fcOpex,
      (optPoint solver r.fcCapex r.fcOpex).1,
      (optPoint solver r.fcCapex r.fcOpex).2⟩

/-- One row of `full_df`.  The optimized columns are `Option ℚ` because a
left merge leaves NaN where no right-hand row matches. -/
structure FullRow where
  year : ℤ
  fcCapex : ℚ
  fcOpex : ℚ
  optCapex : Option ℚ
  optOpex : Option ℚ
deriving DecidableEq, Repr

/-- Embeds the left merge on `Year` of `backend.py` line 133: each
left row is paired with every right row of equal `Year`, or kept once with
NaN optimized values when no right row matches. -/
def mergeLeft (pred : List PredRow) (opt : List OptRow) : List FullRow :=
  pred.flatMap fun p =>
    let ms := opt.filter fun o => decide (o.year = p.year)
    if ms.isEmpty then [⟨p.year, p.fcCapex, p.fcOpex, none, none⟩]
    else ms.map fun o =>
      ⟨p.year, p.fcCapex, p.fcOpex, some o.optCapex, some o.optOpex⟩

/-- The numeric core of `generate_recommendations` (`backend.py` lines
58-61): the savings percentage, guarded against a zero total forecast.
Column sums in pandas skip NaN, hence the `getD 0`. -/
def genRecSavingsPct (pred : List PredRow) (opt : List FullRow) : ℚ :=
  let totalForecast := (pred.map (·.fcCapex)).sum + (pred.map (·.fcOpex)).sum
  let totalOptimized := (opt.map fun r => r.optCapex.getD 0).sum +
    (opt.map fun r => r.optOpex.getD 0).sum
  let totalSavings := totalForecast - totalOptimized
  if totalForecast ≠ 0 then totalSavings / totalForecast * 100 else 0

/-- The analysis result returned by `run_analysis`: the combined table and
the KPI metrics of the returned dictionary, plus the savings percentage
computed inside `generate_recommendations`. -/
structure AnalysisResult where
  combined : List FullRow
  totalSavings : ℚ
  totalForecast : ℚ
  totalOptimized : ℚ
  savingsPct : ℚ
  recSavingsPct : ℚ
deriving DecidableEq, Repr

/-- Lines 136-143 of `backend.py`: totals over `full_df`, savings, and the
guarded savings percentage, assembled into the result record. -/
def mkResult (pred : List PredRow) (full : List FullRow) : AnalysisResult :=
  let totalForecastCapex := (full.map (·.fcCapex)).sum
  let totalForecastOpex := (full.map (·.fcOpex)).sum
  let totalOptimizedCapex := (full.map fun r => r.optCapex.getD 0).sum
  let totalOptimizedOpex := (full.map fun r => r.optOpex.getD 0).sum
  let totalSavings := (totalForecastCapex + totalForecastOpex) -
    (totalOptimizedCapex + totalOptimizedOpex)
  let totalForecast := totalForecastCapex + totalForecastOpex
  let totalOptimized := totalOptimizedCapex + totalOptimizedOpex
  { combined := full
    totalSavings := totalSavings
    totalForecast := totalForecast
    totalOptimized := totalOptimized
    savingsPct := if totalForecast ≠ 0 then totalSavings / totalForecast * 100 else 0
    recSavingsPct := genRecSavingsPct pred full }

/-- Embeds `list(range(start_year, start_year + forecast_years))` where
`start_year = grouped['Year'].max() + 1` (`backend.py` lines 126-128). -/
def yearsListOf (table : List RawRow) (bankName : List Char) (currentYear : ℤ)
    (forecastYears : ℕ) : List ℤ :=
  (List.range forecastYears).map fun i : ℕ =>
    listMaxInt ((groupedOf table bankName currentYear).map (·.year)) + 1 + (i : ℤ)

/-- Embeds `run_analysis` (`backend.py` lines 105-177), restricted to its
computational content: cleaning, the two guards, forecasting, optimization,
the left merge and the KPI metrics.  File and chart outputs are I/O and are
not embedded.  `fc` embeds the external `auto_arima` forecaster and `solver`
the external SLSQP call, as above. -/
def run_analysis (fc : List ℚ → ℕ → List ℚ) (solver : ℚ → ℚ → Option (ℚ × ℚ))
    (table : List RawRow) (bankName : List Char) (forecastYears : ℕ)
    (currentYear : ℤ) : Except String AnalysisResult :=
  if (bankRowsOf table bankName).isEmpty then
    Except.error "No data for bank"
  else if (groupedOf table bankName currentYear).length < 3 then
    Except.error "Not enough historical data (need at least 3 years)."
  else
    match
      forecast_expenditure fc
        ((groupedOf table bankName currentYear).map fun g => Cell.num g.capex)
        forecastYears,
      forecast_expenditure fc
        ((groupedOf table bankName currentYear).map fun g => Cell.num g.opex)
        forecastYears with
    | Except.ok cf, Except.ok opf =>
        let pred := mkPredRows (yearsListOf table bankName currentYear forecastYears) cf opf
        let full := mergeLeft pred (optimize_expenditures solver pred)
        Except.ok (mkResult pred full)
    | Except.error e, _ => Except.error e
    | _, Except.error e => Except.error e

/-!  User store (`database.py`) and password helpers (`auth.py`).

The sqlite table `users(id INTEGER PRIMARY KEY AUTOINCREMENT, username TEXT
NOT NULL UNIQUE, password_hash TEXT NOT NULL)` is embedded as a list of rows
plus the autoincrement counter.  An `INSERT` violating the UNIQUE constraint
raises `IntegrityError` and changes nothing; `add_user` catches it and
returns `None`.  -/

/-- The `users` table of `database.py`. -/
structure UsersDB where
  nextId : ℕ
  rows : List (ℕ × String × String)
deriving DecidableEq, Repr

/-- Embeds `setup_database` on a fresh database file: an empty `users` table. -/
def setup_database : UsersDB := ⟨1, []⟩

/-- Embeds `add_user` (`database.py` lines 35-49): insert the row and return the new
id, or return `None` leaving the table unchanged when the UNIQUE constraint
on `username` fires. -/
def add_user (db : UsersDB) (username passwordHash : String) :
    UsersDB × Option ℕ :=
  if db.rows.any fun r => r.2.1 == username then
    (db, none)
  else
    (⟨db.nextId + 1, db.rows ++ [(db.nextId, username, passwordHash)]⟩,
      some db.nextId)

/-- Embeds `check_user` (`database.py` lines 51-65): the stored password hash of the
given username, if any. -/
def check_user (db : UsersDB) (username : String) : Option String :=
  (db.rows.find? fun r => r.2.1 == username).map fun r => r.2.2

/-- A bcrypt hash: `bcrypt.hashpw` embeds the salt and a digest of the
password in the returned bytes.  Modelled from the bcrypt library contract
(the library is external to the repository): the digest determines equality
of passwords, so the hash is embedded as the salt together with the hashed
password itself. -/
structure BcryptHash where
  salt : ℕ
  pw : List Char
deriving DecidableEq, Repr

/-- Embeds `hash_password` (`auth.py` lines 3-5): `bcrypt.hashpw(password,
bcrypt.gensalt())`; the fresh salt drawn by `gensalt` is a parameter. -/
def hash_password (password : List Char) (salt : ℕ) : BcryptHash :=
  ⟨salt, password⟩

/-- Embeds `verify_password` (`auth.py` lines 7-9): `bcrypt.checkpw` re-hashes the
provided password with the salt stored in the hash and compares; by the
bcrypt contract this succeeds exactly when the passwords are equal. -/
def verify_password (storedHash : BcryptHash) (provided : List Char) : Bool :=
  provided == storedHash.pw

/-!  Concrete instances used by witnesses and counterexamples. -/

/-- A solver that always reports failure (SLSQP may fail to converge);
vacuously feasible and optimal. -/
def solverFail : ℚ → ℚ → Option (ℚ × ℚ) := fun _ _ => none

/-- A forecaster returning a constant series of ones. -/
def fcOne : List ℚ → ℕ → List ℚ := fun _ n => List.replicate n 1

/-- A forecaster returning a constant series of zeros. -/
def fcZero : List ℚ → ℕ → List ℚ := fun _ n => List.replicate n 0

/-- A forecaster returning negative point forecasts, as `auto_arima` can on a
decreasing series. -/
def fcNeg : List ℚ → ℕ → List ℚ := fun _ n => List.replicate n (-1)

/-- A three-year single-institution input table. -/
def sampleTable : List RawRow :=
  [⟨"SBI".toList, Cell.num 2019, Cell.num 10, Cell.num 5⟩,
   ⟨"SBI".toList, Cell.num 2020, Cell.num 11, Cell.num 6⟩,
   ⟨"SBI".toList, Cell.num 2021, Cell.num 12, Cell.num 7⟩]

/-- A table with only two historical years for the institution. -/
def shortTable : List RawRow :=
  [⟨"SBI".toList, Cell.num 2020, Cell.num 11, Cell.num 6⟩,
   ⟨"SBI".toList, Cell.num 2021, Cell.num 12, Cell.num 7⟩]

/-- The `pred_df` built by `run_analysis` (years paired with the two
forecast series). -/
def predRowsOf (fc : List ℚ → ℕ → List ℚ) (table : List RawRow)
    (bankName : List Char) (forecastYears : ℕ) (currentYear : ℤ) :
    List PredRow :=
  mkPredRows (yearsListOf table bankName currentYear forecastYears)
    (fc ((groupedOf table bankName currentYear).map (·.capex)) forecastYears)
    (fc ((groupedOf table bankName currentYear).map (·.opex)) forecastYears)

/-- The row produced by one iteration of the loop of
`optimize_expenditures`. -/
def optRowOf (solver : ℚ → ℚ → Option (ℚ × ℚ)) (r : PredRow) : OptRow :=
  ⟨r.year, r.fcCapex, r.fcOpex,
    (optPoint solver r.fcCapex r.fcOpex).1,
    (optPoint solver r.fcCapex r.fcOpex).2⟩

/-- The combined row for one forecast year after the left merge matched
its unique partner. -/
def fullRowOf (solver : ℚ → ℚ → Option (ℚ × ℚ)) (r : PredRow) : FullRow :=
  ⟨r.year, r.fcCapex, r.fcOpex,
    some (optPoint solver r.fcCapex r.fcOpex).1,
    some (optPoint solver r.fcCapex r.fcOpex).2⟩

/-- A cleaned historical row as the specification describes the cleaning:
expenditures are coerced to numeric (NaN for non-numeric cells) with no
further filling. -/
structure SpecHistRow where
  year : ℤ
  capex : Option ℚ
  opex : Option ℚ
deriving DecidableEq, Repr

/-- The cleaning as the specification words it: `Year` forward-filled then
coerced to numeric with non-numeric rows dropped, rows filtered to the
selected institution (and to historical years), and the two expenditure
columns coerced to numeric. -/
def specCleanRows (table : List RawRow) (bankName : List Char)
    (currentYear : ℤ) : List SpecHistRow :=
  ((bankRowsOf table bankName).filter fun r =>
      decide (r.year ≤ currentYear - 1)).map fun r =>
    ⟨r.year, coerceNum r.capex, coerceNum r.opex⟩

/-- The grouped table as the specification words it: grouped by `Year` with
`Capital Expenditure` and `Operating Expenditure` summed within each year
(pandas sums skip NaN). -/
def specGrouped (table : List RawRow) (bankName : List Char)
    (currentYear : ℤ) : List GroupedRow :=
  (((specCleanRows table bankName currentYear).map (·.year)).dedup).map fun y =>
    ⟨y, ((((specCleanRows table bankName currentYear).filter fun r =>
          decide (r.year = y)).map (·.capex)).reduceOption).sum,
        ((((specCleanRows table bankName currentYear).filter fun r =>
          decide (r.year = y)).map (·.opex)).reduceOption).sum⟩

/-!  Supporting lemmas. -/

/-- Coercing an all-numeric series is the identity. -/
lemma filterMap_coerceNum_map_num (l : List ℚ) :
    (l.map Cell.num).filterMap coerceNum = l := by
  induction l with
  | nil => rfl
  | cons a l ih => simp [List.filterMap_cons, coerceNum, ih]

/-- On an all-numeric series of length at least 3, `forecast_expenditure`
succeeds and returns the forecaster's output. -/
lemma forecast_expenditure_map_num (fc : List ℚ → ℕ → List ℚ) (l : List ℚ)
    (n : ℕ) (h : ¬ l.length < 3) :
    forecast_expenditure fc (l.map Cell.num) n = Except.ok (fc l n) := by
  simp only [forecast_expenditure]
  rw [filterMap_coerceNum_map_num]
  simp [h]

/-- An empty institution selection yields an empty grouped table. -/
lemma groupedOf_eq_nil_of_bank_empty (table : List RawRow)
    (bankName : List Char) (currentYear : ℤ)
    (h : bankRowsOf table bankName = []) :
    groupedOf table bankName currentYear = [] := by
  simp [groupedOf, histRowsOf, groupByYear, h]

/-- A grouped table with at least 3 rows comes from a nonempty institution
selection. -/
lemma bankRows_ne_nil_of_grouped (table : List RawRow) (bankName : List Char)
    (currentYear : ℤ) (h3 : 3 ≤ (groupedOf table bankName currentYear).length) :
    (bankRowsOf table bankName).isEmpty = false := by
  rcases h : bankRowsOf table bankName with _ | ⟨r, rs⟩
  · rw [groupedOf_eq_nil_of_bank_empty table bankName currentYear h] at h3
    simp at h3
  · simp

/-- Optimization is a per-row map. -/
lemma optimize_eq_map (solver : ℚ → ℚ → Option (ℚ × ℚ)) (df : List PredRow) :
    optimize_expenditures solver df = df.map (optRowOf solver) := rfl

/-- A flat map whose pieces are singletons is a map. -/
lemma flatMap_singleton_eq_map {α β : Type} (l : List α) (h : α → List β)
    (m : α → β) (hp : ∀ p ∈ l, h p = [m p]) : l.flatMap h = l.map m := by
  induction l with
  | nil => rfl
  | cons a l ih =>
      rw [List.flatMap_cons, hp a (List.mem_cons_self a l),
        ih fun p hp2 => hp p (List.mem_cons_of_mem a hp2)]
      rfl

/-- In a frame whose years are pairwise distinct, filtering on the year of a
member row returns exactly that row. -/
lemma filter_year_eq_of_nodup (l : List PredRow)
    (hnd : (l.map (·.year)).Nodup) (p : PredRow) (hp : p ∈ l) :
    (l.filter fun r => decide (r.year = p.year)) = [p] := by
  induction l with
  | nil => cases hp
  | cons a l ih =>
      rw [List.map_cons, List.nodup_cons] at hnd
      rcases List.mem_cons.mp hp with rfl | hp2
      · rw [List.filter_cons_of_pos (by simp)]
        have : (l.filter fun r => decide (r.year = p.year)) = [] := by
          apply List.filter_eq_nil_iff.mpr
          intro r hr hyr
          exact hnd.1 (List.mem_map.mpr ⟨r, hr, of_decide_eq_true hyr⟩)
        rw [this]
      · have hne : ¬ (a.year = p.year) := by
          intro he
          exact hnd.1 (he ▸ List.mem_map.mpr ⟨p, hp2, rfl⟩)
        rw [List.filter_cons_of_neg (by simpa using hne)]
        exact ih hnd.2 hp2

/-- When years are pairwise distinct, the left merge of `pred_df` with its
optimization pairs each row with exactly its own optimized values. -/
lemma mergeLeft_optimize (solver : ℚ → ℚ → Option (ℚ × ℚ))
    (pred : List PredRow) (hnd : (pred.map (·.year)).Nodup) :
    mergeLeft pred (optimize_expenditures solver pred) =
      pred.map (fullRowOf solver) := by
  unfold mergeLeft
  apply flatMap_singleton_eq_map
  intro p hp
  have hfilter : ((optimize_expenditures solver pred).filter
      fun o => decide (o.year = p.year)) = [optRowOf solver p] := by
    rw [optimize_eq_map, List.filter_map]
    have : (pred.filter ((fun o => decide (o.year = p.year)) ∘ optRowOf solver)) =
        (pred.filter fun r => decide (r.year = p.year)) := by
      apply List.filter_congr
      intro r _
      rfl
    rw [this, filter_year_eq_of_nodup pred hnd p hp]
    rfl
  simp only [hfilter]
  rfl

/-- Columns of `mkPredRows` when the three columns have equal length. -/
lemma mkPredRows_year_col : ∀ (ys : List ℤ) (cs os : List ℚ),
    cs.length = ys.length → os.length = ys.length →
    (mkPredRows ys cs os).map (·.year) = ys := by
  intro ys
  induction ys with
  | nil =>
      intro cs os hc ho
      rcases cs with _ | ⟨c, cs⟩
      · rcases os with _ | ⟨o, os⟩ <;> simp [mkPredRows]
      · simp at hc
  | cons y ys ih =>
      intro cs os hc ho
      rcases cs with _ | ⟨c, cs⟩
      · simp at hc
      · rcases os with _ | ⟨o, os⟩
        · simp at ho
        · simp only [mkPredRows, List.map_cons]
          rw [ih cs os (by simpa using hc) (by simpa using ho)]

/-- The year column of `mkPredRows` is a sublist of the year list. -/
lemma mkPredRows_year_sublist : ∀ (ys : List ℤ) (cs os : List ℚ),
    ((mkPredRows ys cs os).map (·.year)).Sublist ys := by
  intro ys
  induction ys with
  | nil =>
      intro cs os
      rcases cs with _ | ⟨c, cs⟩ <;> rcases os with _ | ⟨o, os⟩ <;>
        simp [mkPredRows]
  | cons y ys ih =>
      intro cs os
      rcases cs with _ | ⟨c, cs⟩
      · simp [mkPredRows]
      · rcases os with _ | ⟨o, os⟩
        · simp [mkPredRows]
        · simpa only [mkPredRows, List.map_cons] using (ih cs os).cons₂ y

/-- Any row of `mkPredRows` draws its forecasts from the two columns. -/
lemma mkPredRows_mem : ∀ (ys : List ℤ) (cs os : List ℚ) (r : PredRow),
    r ∈ mkPredRows ys cs os → r.fcCapex ∈ cs ∧ r.fcOpex ∈ os := by
  intro ys
  induction ys with
  | nil =>
      intro cs os r hr
      rcases cs with _ | ⟨c, cs⟩ <;> rcases os with _ | ⟨o, os⟩ <;>
        simp [mkPredRows] at hr
  | cons y ys ih =>
      intro cs os r hr
      rcases cs with _ | ⟨c, cs⟩
      · simp [mkPredRows] at hr
      · rcases os with _ | ⟨o, os⟩
        · simp [mkPredRows] at hr
        · rcases List.mem_cons.mp hr with rfl | hr2
          · exact ⟨List.mem_cons_self _ _, List.mem_cons_self _ _⟩
          · rcases ih cs os r hr2 with ⟨h1, h2⟩
            exact ⟨List.mem_cons_of_mem c h1, List.mem_cons_of_mem o h2⟩

/-- Distinctness of consecutive integers generated from a range. -/
lemma nodup_range_map_add (base : ℤ) (n : ℕ) :
    ((List.range n).map fun i : ℕ => base + (i : ℤ)).Nodup := by
  have hinj : Function.Injective (fun i : ℕ => base + (i : ℤ)) := by
    intro a b hab
    dsimp only at hab
    have h2 : (a : ℤ) = (b : ℤ) := by omega
    exact_mod_cast h2
  exact List.Nodup.map hinj (List.nodup_range n)

/-- The generated year list is pairwise distinct. -/
lemma yearsListOf_nodup (table : List RawRow) (bankName : List Char)
    (currentYear : ℤ) (forecastYears : ℕ) :
    (yearsListOf table bankName currentYear forecastYears).Nodup := by
  unfold yearsListOf
  exact nodup_range_map_add _ forecastYears

/-- Every member is at most the maximum. -/
lemma le_listMaxInt : ∀ (l : List ℤ) (y : ℤ), y ∈ l → y ≤ listMaxInt l := by
  intro l
  induction l with
  | nil => intro y hy; cases hy
  | cons a l ih =>
      intro y hy
      rcases l with _ | ⟨b, l2⟩
      · rcases List.mem_cons.mp hy with rfl | hy2
        · exact le_refl _
        · cases hy2
      · rcases List.mem_cons.mp hy with rfl | hy2
        · exact le_max_left _ _
        · exact le_trans (ih y hy2) (le_max_right _ _)

/-- The maximum of a nonempty list is attained. -/
lemma listMaxInt_mem : ∀ (l : List ℤ), l ≠ [] → listMaxInt l ∈ l := by
  intro l
  induction l with
  | nil => intro h; exact absurd rfl h
  | cons a l ih =>
      intro _
      rcases l with _ | ⟨b, l2⟩
      · simp [listMaxInt]
      · have he : listMaxInt (a :: b :: l2) = max a (listMaxInt (b :: l2)) := rfl
        rcases max_choice a (listMaxInt (b :: l2)) with h | h
        · rw [he, h]; exact List.mem_cons_self _ _
        · rw [he, h]
          exact List.mem_cons_of_mem a (ih (by simp))

/-- On a grouped table with at least 3 years, `run_analysis` succeeds and its
result is the merge-of-optimization of `pred_df`. -/
lemma run_analysis_eq_ok (fc : List ℚ → ℕ → List ℚ)
    (solver : ℚ → ℚ → Option (ℚ × ℚ)) (table : List RawRow)
    (bankName : List Char) (forecastYears : ℕ) (currentYear : ℤ)
    (h3 : 3 ≤ (groupedOf table bankName currentYear).length) :
    run_analysis fc solver table bankName forecastYears currentYear =
      Except.ok (mkResult (predRowsOf fc table bankName forecastYears currentYear)
        (mergeLeft (predRowsOf fc table bankName forecastYears currentYear)
          (optimize_expenditures solver
            (predRowsOf fc table bankName forecastYears currentYear)))) := by
  have hbank := bankRows_ne_nil_of_grouped table bankName currentYear h3
  have hlen : ¬ ((groupedOf table bankName currentYear).length < 3) := by omega
  have hglen : ¬ ((groupedOf table bankName currentYear).map (·.capex)).length < 3 := by
    simpa using hlen
  have holen : ¬ ((groupedOf table bankName currentYear).map (·.opex)).length < 3 := by
    simpa using hlen
  unfold run_analysis
  rw [hbank]
  simp only [Bool.false_eq_true, if_false, hlen, if_false]
  have hc : ((groupedOf table bankName currentYear).map fun g => Cell.num g.capex) =
      ((groupedOf table bankName currentYear).map (·.capex)).map Cell.num := by
    rw [List.map_map]; rfl
  have ho : ((groupedOf table bankName currentYear).map fun g => Cell.num g.opex) =
      ((groupedOf table bankName currentYear).map (·.opex)).map Cell.num := by
    rw [List.map_map]; rfl
  rw [hc, ho, forecast_expenditure_map_num fc _ _ hglen,
    forecast_expenditure_map_num fc _ _ holen]
  rfl

/-- The year column of the combined table is exactly the generated year list
when the forecaster honours its length contract. -/
lemma combined_of_run (fc : List ℚ → ℕ → List ℚ)
    (solver : ℚ → ℚ → Option (ℚ × ℚ)) (table : List RawRow)
    (bankName : List Char) (forecastYears : ℕ) (currentYear : ℤ)
    (res : AnalysisResult)
    (hok : run_analysis fc solver table bankName forecastYears currentYear =
      Except.ok res) :
    res.combined = (predRowsOf fc table bankName forecastYears currentYear).map
      (fullRowOf solver) := by
  by_cases h3 : 3 ≤ (groupedOf table bankName currentYear).length
  · rw [run_analysis_eq_ok fc solver table bankName forecastYears currentYear h3]
      at hok
    have hres := Except.ok.inj hok
    rw [← hres]
    show mergeLeft _ (optimize_expenditures solver _) = _
    apply mergeLeft_optimize
    exact ((mkPredRows_year_sublist _ _ _).nodup
      (yearsListOf_nodup table bankName currentYear forecastYears))
  · exfalso
    unfold run_analysis at hok
    by_cases hb : (bankRowsOf table bankName).isEmpty
    · rw [if_pos hb] at hok
      cases hok
    · rw [if_neg hb, if_pos (by omega)] at hok
      cases hok

/-- Both branches of the per-year optimization respect the constraint
floors whenever solver-reported solutions are feasible. -/
lemma optPoint_floor (solver : ℚ → ℚ → Option (ℚ × ℚ))
    (hfeas : SolverFeasible solver) (p q : ℚ) :
    0.8 * p ≤ (optPoint solver p q).1 ∧ 0.7 * q ≤ (optPoint solver p q).2 := by
  unfold optPoint
  rcases hs : solver p q with _ | ⟨c, o⟩
  · exact ⟨le_refl _, le_refl _⟩
  · rcases hfeas p q c o hs with ⟨h1, h2, _, _⟩
    exact ⟨h1, h2⟩

/-- Both optimized values are nonnegative: on the success branch by the
solver bounds, on the fallback branch whenever the forecasts are
nonnegative. -/
lemma optPoint_nonneg (solver : ℚ → ℚ → Option (ℚ × ℚ))
    (hfeas : SolverFeasible solver) (p q : ℚ) (hp : 0 ≤ p) (hq : 0 ≤ q) :
    0 ≤ (optPoint solver p q).1 ∧ 0 ≤ (optPoint solver p q).2 := by
  unfold optPoint
  rcases hs : solver p q with _ | ⟨c, o⟩
  · constructor <;> [nlinarith; nlinarith]
  · rcases hfeas p q c o hs with ⟨_, _, h3, h4⟩
    exact ⟨h3, h4⟩

/-- A minimizer of the per-year objective never exceeds the forecast when
the forecasts are nonnegative: moving a coordinate down to the forecast
value keeps feasibility and strictly lowers the objective. -/
lemma optPoint_le_pred (solver : ℚ → ℚ → Option (ℚ × ℚ))
    (hopt : SolverOptimal solver) (p q : ℚ) (hp : 0 ≤ p) (hq : 0 ≤ q) :
    (optPoint solver p q).1 ≤ p ∧ (optPoint solver p q).2 ≤ q := by
  unfold optPoint
  rcases hs : solver p q with _ | ⟨c, o⟩
  · constructor <;> [nlinarith; nlinarith]
  · rcases hopt p q c o hs with ⟨⟨hc1, ho1, hc0, ho0⟩, hmin⟩
    constructor
    · have hfeas2 : Feasible p q p o := by
        refine ⟨by nlinarith, ho1, hp, ho0⟩
      have hle := hmin p o hfeas2
      simp only [objective] at hle
      nlinarith [sq_nonneg (c - p)]
    · have hfeas2 : Feasible p q c q := by
        refine ⟨hc1, by nlinarith, hc0, hq⟩
      have hle := hmin c q hfeas2
      simp only [objective] at hle
      nlinarith [sq_nonneg (o - q)]

/-- Pointwise bounds on sums over a mapped list. -/
lemma sum_map_le_sum_map {α : Type} (l : List α) (f g : α → ℚ)
    (h : ∀ x ∈ l, f x ≤ g x) : (l.map f).sum ≤ (l.map g).sum := by
  induction l with
  | nil => simp
  | cons a l ih =>
      simp only [List.map_cons, List.sum_cons]
      have := h a (List.mem_cons_self a l)
      have := ih fun x hx => h x (List.mem_cons_of_mem a hx)
      linarith

/-- C5: whenever the SLSQP solver reports failure or a non-finite point for a
forecast year (embedded as `solver _ _ = none`), the optimized point of that
row equals exactly the constraint floor `(0.8 * pred_capex, 0.7 * pred_opex)`. -/
theorem c5_fallback_floor (solver : ℚ → ℚ → Option (ℚ × ℚ))
    (df : List PredRow) :
    ∀ pr ∈ df.zip (optimize_expenditures solver df),
      solver pr.1.fcCapex pr.1.fcOpex = none →
      pr.2.optCapex = 0.8 * pr.1.fcCapex ∧ pr.2.optOpex = 0.7 * pr.1.fcOpex := by
  rw [optimize_eq_map]
  induction df with
  | nil => intro pr hpr hnone; cases hpr
  | cons a l ih =>
      intro pr hpr hnone
      rw [List.map_cons, List.zip_cons_cons] at hpr
      rcases List.mem_cons.mp hpr with rfl | hpr2
      · dsimp only at hnone ⊢
        have h1 : optPoint solver a.fcCapex a.fcOpex =
            (0.8 * a.fcCapex, 0.7 * a.fcOpex) := by
          unfold optPoint
          rw [hnone]
        constructor
        · show (optPoint solver a.fcCapex a.fcOpex).1 = 0.8 * a.fcCapex
          rw [h1]
        · show (optPoint solver a.fcCapex a.fcOpex).2 = 0.7 * a.fcOpex
          rw [h1]
      · exact ih pr hpr2 hnone

set_option maxRecDepth 20000

/-- Witness for C5 at a concrete frame and the always-failing solver. -/
theorem c5_witness :
    ((⟨2030, 10, 20⟩ : PredRow), (⟨2030, 10, 20, 8, 14⟩ : OptRow)) ∈
        ([⟨2030, 10, 20⟩] : List PredRow).zip
          (optimize_expenditures solverFail [⟨2030, 10, 20⟩]) ∧
      solverFail 10 20 = none ∧
      ((8 : ℚ) = 0.8 * 10 ∧ (14 : ℚ) = 0.7 * 20) :=
  ⟨by with_unfolding_all decide, rfl,
    c5_fallback_floor solverFail [⟨2030, 10, 20⟩]
      ((⟨2030, 10, 20⟩ : PredRow), (⟨2030, 10, 20, 8, 14⟩ : OptRow))
      (by with_unfolding_all decide) rfl⟩

/-- C10: `optimize_expenditures` is frame-preserving: it has as many rows as
its input, keeps every input column unchanged (the output row type carries
exactly the two added columns on top of the input columns), and does not
mutate its input, which the embedding renders as a pure function of `df`. -/
theorem c10_frame_preservation (solver : ℚ → ℚ → Option (ℚ × ℚ))
    (df : List PredRow) :
    (optimize_expenditures solver df).length = df.length ∧
    (optimize_expenditures solver df).map
      (fun r => PredRow.mk r.year r.fcCapex r.fcOpex) = df := by
  rw [optimize_eq_map]
  constructor
  · rw [List.length_map]
  · rw [List.map_map]
    have : ((fun r : OptRow => PredRow.mk r.year r.fcCapex r.fcOpex) ∘
        optRowOf solver) = fun r => r := by
      funext r
      rfl
    rw [this]
    exact List.map_id' df

/-- C6: the savings percentage is 0 whenever the total forecast is 0, both in
`run_analysis` and inside `generate_recommendations`; in both places the
division is guarded by the zero test, so the embedding is a total function
and no division-by-zero error can be raised for any input totals. -/
theorem c6_savings_pct_guard :
    (∀ (pred : List PredRow) (opt : List FullRow),
      (pred.map (·.fcCapex)).sum + (pred.map (·.fcOpex)).sum = 0 →
      genRecSavingsPct pred opt = 0) ∧
    (∀ (fc : List ℚ → ℕ → List ℚ) (solver : ℚ → ℚ → Option (ℚ × ℚ))
      (table : List RawRow) (bankName : List Char) (forecastYears : ℕ)
      (currentYear : ℤ) (res : AnalysisResult),
      run_analysis fc solver table bankName forecastYears currentYear =
        Except.ok res →
      res.totalForecast = 0 → res.savingsPct = 0) := by
  constructor
  · intro pred opt h0
    unfold genRecSavingsPct
    rw [if_neg]
    intro hne
    exact hne h0
  · intro fc solver table bankName forecastYears currentYear res hok h0
    by_cases h3 : 3 ≤ (groupedOf table bankName currentYear).length
    · rw [run_analysis_eq_ok fc solver table bankName forecastYears
        currentYear h3] at hok
      have hres := Except.ok.inj hok
      rw [← hres] at h0 ⊢
      show (if _ ≠ (0:ℚ) then _ else 0) = 0
      rw [if_neg]
      intro hne
      exact hne h0
    · exfalso
      unfold run_analysis at hok
      by_cases hb : (bankRowsOf table bankName).isEmpty
      · rw [if_pos hb] at hok
        cases hok
      · rw [if_neg hb, if_pos (by omega)] at hok
        cases hok

/-- Witness for C6: a run on all-zero expenditures has zero total forecast
and zero savings percentage, and the recommendation percentage at zero
forecast totals is 0. -/
theorem c6_witness :
    genRecSavingsPct [⟨2030, 0, 0⟩] [⟨2030, 0, 0, some 1, some 1⟩] = 0 ∧
    (run_analysis fcZero solverFail sampleTable ("SBI".toList) 2 2022).toOption.map
      (fun r => (r.totalForecast, r.savingsPct)) = some (0, 0) := by
  constructor
  · exact c6_savings_pct_guard.1 [⟨2030, 0, 0⟩] [⟨2030, 0, 0, some 1, some 1⟩]
      (by with_unfolding_all decide)
  · with_unfolding_all decide

/-- C7: adding a username that already exists fails (returns `None`) and
leaves the users table, in particular the stored password hash of the first
signup, unchanged. -/
theorem c7_duplicate_user (db : UsersDB) (username h1 h2 : String)
    (hexists : check_user db username = some h1) :
    add_user db username h2 = (db, none) ∧
      check_user (add_user db username h2).1 username = some h1 := by
  have hany : (db.rows.any fun r => r.2.1 == username) = true := by
    unfold check_user at hexists
    rcases hfind : db.rows.find? fun r => r.2.1 == username with _ | r
    · rw [hfind] at hexists
      cases hexists
    · have hp := List.find?_some hfind
      exact List.any_eq_true.mpr ⟨r, List.mem_of_find?_eq_some hfind, hp⟩
  have hadd : add_user db username h2 = (db, none) := by
    unfold add_user
    rw [hany]
    rfl
  exact ⟨hadd, by rw [hadd]; exact hexists⟩

/-- Witness for C7 on a concrete two-step signup. -/
theorem c7_witness :
    check_user (add_user setup_database "a@gmail.com" "hash1").1 "a@gmail.com" =
        some "hash1" ∧
      add_user (add_user setup_database "a@gmail.com" "hash1").1 "a@gmail.com"
          "hash2" = ((add_user setup_database "a@gmail.com" "hash1").1, none) ∧
      check_user (add_user (add_user setup_database "a@gmail.com" "hash1").1
          "a@gmail.com" "hash2").1 "a@gmail.com" = some "hash1" := by
  refine ⟨by with_unfolding_all decide, ?_⟩
  have h := c7_duplicate_user (add_user setup_database "a@gmail.com" "hash1").1
    "a@gmail.com" "hash1" "hash2" (by with_unfolding_all decide)
  exact h

/-- C8: verifying the password that was hashed succeeds, and verifying any
single-character mutation of it fails; this rests on the bcrypt contract that
`checkpw` agrees exactly with password equality. -/
theorem c8_password_roundtrip (p : List Char) (salt : ℕ) (i : ℕ) (c : Char)
    (hi : i < p.length) (hc : c ≠ p.get ⟨i, hi⟩) :
    verify_password (hash_password p salt) p = true ∧
    verify_password (hash_password p salt) (p.set i c) = false := by
  constructor
  · unfold verify_password hash_password
    exact beq_self_eq_true p
  · unfold verify_password hash_password
    apply beq_eq_false_iff_ne.mpr
    intro he
    apply hc
    have h1 : (p.set i c)[i]? = p[i]? := by rw [he]
    rw [List.getElem?_set_self hi, List.getElem?_eq_getElem hi] at h1
    have h2 := Option.some.inj h1
    rw [h2]
    rfl

/-- Witness for C8 on a concrete password and mutation. -/
theorem c8_witness :
    0 < ("abc".toList).length ∧ ('z' ≠ 'a') ∧
    verify_password (hash_password ("abc".toList) 0) ("abc".toList) = true ∧
    verify_password (hash_password ("abc".toList) 0)
      (("abc".toList).set 0 'z') = false := by
  refine ⟨by decide, by decide, ?_⟩
  exact c8_password_roundtrip ("abc".toList) 0 0 'z' (by decide) (by decide)

/-- C4: `run_analysis` raises a `ValueError` exactly when the selected
institution has fewer than 3 grouped historical years at or before
`current_year - 1`, and `forecast_expenditure` raises exactly when its
series has fewer than 3 numeric points; with 3 or more, neither fails. -/
theorem c4_min_history_errors (fc : List ℚ → ℕ → List ℚ)
    (solver : ℚ → ℚ → Option (ℚ × ℚ)) :
    (∀ (series : List Cell) (n : ℕ),
      (series.filterMap coerceNum).length < 3 →
      ∃ e, forecast_expenditure fc series n = Except.error e) ∧
    (∀ (series : List Cell) (n : ℕ),
      3 ≤ (series.filterMap coerceNum).length →
      ∃ l, forecast_expenditure fc series n = Except.ok l) ∧
    (∀ (table : List RawRow) (bankName : List Char) (n : ℕ) (cy : ℤ),
      (groupedOf table bankName cy).length < 3 →
      ∃ e, run_analysis fc solver table bankName n cy = Except.error e) ∧
    (∀ (table : List RawRow) (bankName : List Char) (n : ℕ) (cy : ℤ),
      3 ≤ (groupedOf table bankName cy).length →
      ∃ res, run_analysis fc solver table bankName n cy = Except.ok res) := by
  refine ⟨?_, ?_, ?_, ?_⟩
  · intro series n hlt
    unfold forecast_expenditure
    rw [if_pos hlt]
    exact ⟨_, rfl⟩
  · intro series n hge
    unfold forecast_expenditure
    rw [if_neg (by omega)]
    exact ⟨_, rfl⟩
  · intro table bankName n cy hlt
    unfold run_analysis
    by_cases hb : (bankRowsOf table bankName).isEmpty
    · rw [if_pos hb]
      exact ⟨_, rfl⟩
    · rw [if_neg hb, if_pos hlt]
      exact ⟨_, rfl⟩
  · intro table bankName n cy hge
    exact ⟨_, run_analysis_eq_ok fc solver table bankName n cy hge⟩

/-- Witness for C4: a two-point series and a two-year table fail, a
three-point series and a three-year table succeed. -/
theorem c4_witness :
    (∃ e, forecast_expenditure fcOne [Cell.num 1, Cell.num 2] 5 =
      Except.error e) ∧
    (∃ l, forecast_expenditure fcOne [Cell.num 1, Cell.num 2, Cell.num 3] 5 =
      Except.ok l) ∧
    (∃ e, run_analysis fcOne solverFail shortTable ("SBI".toList) 2 2022 =
      Except.error e) ∧
    (∃ res, run_analysis fcOne solverFail sampleTable ("SBI".toList) 2 2022 =
      Except.ok res) :=
  ⟨(c4_min_history_errors fcOne solverFail).1 [Cell.num 1, Cell.num 2] 5
      (by with_unfolding_all decide),
    (c4_min_history_errors fcOne solverFail).2.1
      [Cell.num 1, Cell.num 2, Cell.num 3] 5 (by with_unfolding_all decide),
    (c4_min_history_errors fcOne solverFail).2.2.1 shortTable ("SBI".toList)
      2 2022 (by with_unfolding_all decide),
    (c4_min_history_errors fcOne solverFail).2.2.2 sampleTable ("SBI".toList)
      2 2022 (by with_unfolding_all decide)⟩

/-- Counterexample to C1 as stated: on the solver-failure fallback branch
with a negative forecast, the optimized values equal the (negative) floors,
so they are not nonnegative. -/
theorem c1_counterexample :
    ¬ (∀ r ∈ optimize_expenditures solverFail [⟨2030, -1, -1⟩],
        0.8 * r.fcCapex ≤ r.optCapex ∧ 0.7 * r.fcOpex ≤ r.optOpex ∧
        0 ≤ r.optCapex ∧ 0 ≤ r.optOpex) := by
  with_unfolding_all decide

/-- C1 (amended): every row of `optimize_expenditures` — and hence of the
combined table of `run_analysis` — satisfies the constraint floors
`Optimized_CapEx ≥ 0.8 · Forecast_CapEx` and
`Optimized_OpEx ≥ 0.7 · Forecast_OpEx` on both branches, regardless of the
sign of the forecasts, assuming solver-reported points are feasible; both
optimized values of a row are moreover nonnegative whenever that row's
forecast values are nonnegative (on the success branch nonnegativity holds
by the solver bounds alone). -/
theorem c1_floor_nonneg_amended (solver : ℚ → ℚ → Option (ℚ × ℚ))
    (hfeas : SolverFeasible solver) :
    (∀ df : List PredRow,
      ∀ r ∈ optimize_expenditures solver df,
        (0.8 * r.fcCapex ≤ r.optCapex ∧ 0.7 * r.fcOpex ≤ r.optOpex) ∧
        (0 ≤ r.fcCapex → 0 ≤ r.fcOpex → 0 ≤ r.optCapex ∧ 0 ≤ r.optOpex)) ∧
    (∀ (fc : List ℚ → ℕ → List ℚ) (table : List RawRow)
      (bankName : List Char) (forecastYears : ℕ) (currentYear : ℤ)
      (res : AnalysisResult),
      run_analysis fc solver table bankName forecastYears currentYear =
        Except.ok res →
      ∀ r ∈ res.combined, ∃ c o, r.optCapex = some c ∧ r.optOpex = some o ∧
        (0.8 * r.fcCapex ≤ c ∧ 0.7 * r.fcOpex ≤ o) ∧
        (0 ≤ r.fcCapex → 0 ≤ r.fcOpex → 0 ≤ c ∧ 0 ≤ o)) := by
  constructor
  · intro df r hr
    rw [optimize_eq_map] at hr
    rcases List.mem_map.mp hr with ⟨x, hx, rfl⟩
    rcases optPoint_floor solver hfeas x.fcCapex x.fcOpex with ⟨h1, h2⟩
    refine ⟨⟨h1, h2⟩, ?_⟩
    intro hp hq
    exact optPoint_nonneg solver hfeas x.fcCapex x.fcOpex hp hq
  · intro fc table bankName forecastYears currentYear res hok r hr
    rw [combined_of_run fc solver table bankName forecastYears currentYear
      res hok] at hr
    rcases List.mem_map.mp hr with ⟨x, hx, rfl⟩
    rcases optPoint_floor solver hfeas x.fcCapex x.fcOpex with ⟨h1, h2⟩
    refine ⟨(optPoint solver x.fcCapex x.fcOpex).1,
      (optPoint solver x.fcCapex x.fcOpex).2, rfl, rfl, ⟨h1, h2⟩, ?_⟩
    intro hp hq
    exact optPoint_nonneg solver hfeas x.fcCapex x.fcOpex hp hq

/-- Witness for C1 (amended): the always-failing solver on a nonnegative
forecast row (floors and nonnegativity) and on a negative forecast row
(floors alone, the regime of the counterexample). -/
theorem c1_witness :
    ((⟨2030, 10, 20, 8, 14⟩ : OptRow) ∈
        optimize_expenditures solverFail [⟨2030, 10, 20⟩] ∧
      (0.8 * (10:ℚ) ≤ 8 ∧ 0.7 * (20:ℚ) ≤ 14) ∧
      ((0:ℚ) ≤ 8 ∧ (0:ℚ) ≤ 14)) ∧
    ((⟨2030, -1, -1, -4/5, -7/10⟩ : OptRow) ∈
        optimize_expenditures solverFail [⟨2030, -1, -1⟩] ∧
      (0.8 * (-1:ℚ) ≤ -4/5 ∧ 0.7 * (-1:ℚ) ≤ -7/10)) := by
  have hfeas0 : SolverFeasible solverFail := by
    intro p q c o h
    cases h
  constructor
  · have h := (c1_floor_nonneg_amended solverFail hfeas0).1
      [⟨2030, 10, 20⟩] ⟨2030, 10, 20, 8, 14⟩ (by with_unfolding_all decide)
    exact ⟨by with_unfolding_all decide, h.1,
      h.2 (by norm_num) (by norm_num)⟩
  · have h := (c1_floor_nonneg_amended solverFail hfeas0).1
      [⟨2030, -1, -1⟩] ⟨2030, -1, -1, -4/5, -7/10⟩
      (by with_unfolding_all decide)
    exact ⟨by with_unfolding_all decide, h.1⟩

/-- C2: with at least 3 grouped historical years and a forecaster honouring
its length contract, `run_analysis` succeeds with a combined table of exactly
`forecast_years` rows whose `Year` column is the strictly increasing list of
consecutive values starting at `last_historical_year + 1`, where
`last_historical_year` is the maximum grouped historical year. -/
theorem c2_forecast_rows_years (fc : List ℚ → ℕ → List ℚ)
    (solver : ℚ → ℚ → Option (ℚ × ℚ)) (table : List RawRow)
    (bankName : List Char) (forecastYears : ℕ) (currentYear : ℤ)
    (res : AnalysisResult)
    (hfc : ∀ (s : List ℚ) (n : ℕ), (fc s n).length = n)
    (h3 : 3 ≤ (groupedOf table bankName currentYear).length)
    (hn : 1 ≤ forecastYears)
    (hok : run_analysis fc solver table bankName forecastYears currentYear =
      Except.ok res) :
    res.combined.length = forecastYears ∧
    res.combined.map (·.year) = ((List.range forecastYears).map fun i : ℕ =>
      listMaxInt ((groupedOf table bankName currentYear).map (·.year)) + 1 +
        (i : ℤ)) ∧
    listMaxInt ((groupedOf table bankName currentYear).map (·.year)) ∈
      (groupedOf table bankName currentYear).map (·.year) ∧
    ∀ y ∈ (groupedOf table bankName currentYear).map (·.year),
      y ≤ listMaxInt ((groupedOf table bankName currentYear).map (·.year)) := by
  have hcomb := combined_of_run fc solver table bankName forecastYears
    currentYear res hok
  have hyl : (yearsListOf table bankName currentYear forecastYears).length =
      forecastYears := by
    unfold yearsListOf
    rw [List.length_map, List.length_range]
  have hycol : (predRowsOf fc table bankName forecastYears currentYear).map
      (·.year) = yearsListOf table bankName currentYear forecastYears := by
    unfold predRowsOf
    apply mkPredRows_year_col
    · rw [hfc, hyl]
    · rw [hfc, hyl]
  have hyears : res.combined.map (·.year) =
      yearsListOf table bankName currentYear forecastYears := by
    rw [hcomb, List.map_map, ← hycol]
    rfl
  refine ⟨?_, ?_, ?_, ?_⟩
  · have := congrArg List.length hyears
    rw [List.length_map] at this
    rw [this, hyl]
  · rw [hyears]
    rfl
  · apply listMaxInt_mem
    intro hnil
    have hg : groupedOf table bankName currentYear = [] :=
      List.map_eq_nil_iff.mp hnil
    rw [hg] at h3
    simp at h3
  · exact le_listMaxInt _

/-- Witness for C2: the sample three-year table forecast two years ahead. -/
theorem c2_witness :
    (∀ (s : List ℚ) (n : ℕ), (fcOne s n).length = n) ∧
    3 ≤ (groupedOf sampleTable ("SBI".toList) 2022).length ∧
    (1:ℕ) ≤ 2 ∧
    (∃ res, run_analysis fcOne solverFail sampleTable ("SBI".toList) 2 2022 =
        Except.ok res ∧ res.combined.length = 2 ∧
        res.combined.map (·.year) = [2022, 2023]) := by
  refine ⟨fun s n => List.length_replicate n 1, by with_unfolding_all decide,
    by decide, ?_⟩
  rcases hok : run_analysis fcOne solverFail sampleTable ("SBI".toList) 2 2022
    with e | res
  · exfalso
    have := run_analysis_eq_ok fcOne solverFail sampleTable ("SBI".toList) 2
      2022 (by with_unfolding_all decide)
    rw [this] at hok
    cases hok
  · have hthm := c2_forecast_rows_years fcOne solverFail sampleTable
      ("SBI".toList) 2 2022 res (fun s n => List.length_replicate n 1)
      (by with_unfolding_all decide) (by decide) hok
    refine ⟨res, rfl, hthm.1, ?_⟩
    rw [hthm.2.1]
    with_unfolding_all decide

/-- Counterexample to C3 as stated: nothing prevents negative point
forecasts, and on such a run the fallback optimized values exceed the
forecasts, making `total_savings` negative on a successful run. -/
theorem c3_counterexample :
    (run_analysis fcNeg solverFail sampleTable ("SBI".toList) 1
        2022).toOption.map (·.totalSavings) = some (-1/2) ∧
      ¬ ((0:ℚ) ≤ -1/2) := by
  constructor
  · with_unfolding_all decide
  · norm_num

/-- C3 (amended): on every successful run whose point forecasts are all
nonnegative, and with solver-reported solutions optimal for the per-year
program (SLSQP's contract), the optimization pass proposes reduced spending:
`total_savings` is nonnegative. -/
theorem c3_savings_nonneg_amended (fc : List ℚ → ℕ → List ℚ)
    (solver : ℚ → ℚ → Option (ℚ × ℚ)) (hopt : SolverOptimal solver)
    (hpos : ∀ (s : List ℚ) (m : ℕ), ∀ x ∈ fc s m, (0:ℚ) ≤ x)
    (table : List RawRow) (bankName : List Char) (forecastYears : ℕ)
    (currentYear : ℤ) (res : AnalysisResult)
    (hok : run_analysis fc solver table bankName forecastYears currentYear =
      Except.ok res) :
    0 ≤ res.totalSavings := by
  by_cases h3 : 3 ≤ (groupedOf table bankName currentYear).length
  · rw [run_analysis_eq_ok fc solver table bankName forecastYears currentYear
      h3] at hok
    have hres := Except.ok.inj hok
    have hfull : mergeLeft (predRowsOf fc table bankName forecastYears
        currentYear) (optimize_expenditures solver (predRowsOf fc table
        bankName forecastYears currentYear)) =
        (predRowsOf fc table bankName forecastYears currentYear).map
          (fullRowOf solver) :=
      mergeLeft_optimize solver _ ((mkPredRows_year_sublist _ _ _).nodup
        (yearsListOf_nodup table bankName currentYear forecastYears))
    rw [← hres]
    set pred := predRowsOf fc table bankName forecastYears currentYear with hpred
    show (0:ℚ) ≤ (mkResult pred (mergeLeft pred
      (optimize_expenditures solver pred))).totalSavings
    rw [hfull]
    show (0:ℚ) ≤
      ((((pred.map (fullRowOf solver)).map (·.fcCapex)).sum +
        ((pred.map (fullRowOf solver)).map (·.fcOpex)).sum) -
       (((pred.map (fullRowOf solver)).map fun r => r.optCapex.getD 0).sum +
        ((pred.map (fullRowOf solver)).map fun r => r.optOpex.getD 0).sum))
    rw [List.map_map, List.map_map, List.map_map, List.map_map]
    have hrows : ∀ r ∈ pred, (0:ℚ) ≤ r.fcCapex ∧ (0:ℚ) ≤ r.fcOpex := by
      intro r hr
      rcases mkPredRows_mem _ _ _ r hr with ⟨h1, h2⟩
      exact ⟨hpos _ _ _ h1, hpos _ _ _ h2⟩
    have hc : (pred.map ((fun r : FullRow => r.optCapex.getD 0) ∘
        fullRowOf solver)).sum ≤
        (pred.map ((fun r : FullRow => r.fcCapex) ∘ fullRowOf solver)).sum := by
      apply sum_map_le_sum_map
      intro x hx
      rcases hrows x hx with ⟨hp, hq⟩
      exact (optPoint_le_pred solver hopt x.fcCapex x.fcOpex hp hq).1
    have ho : (pred.map ((fun r : FullRow => r.optOpex.getD 0) ∘
        fullRowOf solver)).sum ≤
        (pred.map ((fun r : FullRow => r.fcOpex) ∘ fullRowOf solver)).sum := by
      apply sum_map_le_sum_map
      intro x hx
      rcases hrows x hx with ⟨hp, hq⟩
      exact (optPoint_le_pred solver hopt x.fcCapex x.fcOpex hp hq).2
    linarith
  · exfalso
    unfold run_analysis at hok
    by_cases hb : (bankRowsOf table bankName).isEmpty
    · rw [if_pos hb] at hok
      cases hok
    · rw [if_neg hb, if_pos (by omega)] at hok
      cases hok

/-- Witness for C3 (amended): a run with nonnegative constant forecasts and
the (vacuously optimal) always-failing solver has nonnegative savings. -/
theorem c3_witness :
    (∃ res, run_analysis fcOne solverFail sampleTable ("SBI".toList) 2 2022 =
        Except.ok res ∧ 0 ≤ res.totalSavings ∧ res.totalSavings = 1) := by
  rcases hok : run_analysis fcOne solverFail sampleTable ("SBI".toList) 2 2022
    with e | res
  · exfalso
    have := run_analysis_eq_ok fcOne solverFail sampleTable ("SBI".toList) 2
      2022 (by with_unfolding_all decide)
    rw [this] at hok
    cases hok
  · refine ⟨res, rfl, ?_, ?_⟩
    · exact c3_savings_nonneg_amended fcOne solverFail
        (by intro p q c o h; cases h)
        (by
          intro s m x hx
          rw [List.eq_of_mem_replicate hx]
          norm_num)
        sampleTable ("SBI".toList) 2 2022 res hok
    · have := run_analysis_eq_ok fcOne solverFail sampleTable ("SBI".toList) 2
        2022 (by with_unfolding_all decide)
      rw [this] at hok
      rw [← Except.ok.inj hok]
      with_unfolding_all decide

/-- Summing with NaN filled by 0 equals summing with NaN skipped. -/
lemma sum_map_getD_eq_sum_reduceOption {α : Type} (l : List α)
    (f : α → Option ℚ) :
    (l.map fun x => (f x).getD 0).sum = ((l.map f).reduceOption).sum := by
  induction l with
  | nil => rfl
  | cons a l ih =>
      rcases hf : f a with _ | v
      · simp only [List.map_cons, hf, List.reduceOption_cons_of_none,
          List.sum_cons, Option.getD_none, ih]
        rw [zero_add]
      · simp only [List.map_cons, hf, List.reduceOption_cons_of_some,
          List.sum_cons, Option.getD_some, ih]

/-- C9: the cleaning pipeline of `run_analysis` — forward-fill `Year`, coerce
it to numeric dropping non-numeric rows, filter to the selected institution
(and to historical years), coerce the expenditure columns to numeric, group
by `Year` summing both expenditure columns — agrees with the cleaning as the
specification words it, where expenditures keep NaN and group sums skip NaN
instead of filling zeros. -/
theorem c9_cleaning_pipeline (table : List RawRow) (bankName : List Char)
    (currentYear : ℤ) :
    groupedOf table bankName currentYear =
      specGrouped table bankName currentYear := by
  unfold groupedOf specGrouped groupByYear histRowsOf specCleanRows
  set br := (bankRowsOf table bankName).filter
    (fun r => decide (r.year ≤ currentYear - 1)) with hbr
  have hyf : ((br.map fun r =>
      (⟨r.year, coerce0 r.capex, coerce0 r.opex⟩ : HistRow)).map (·.year)) =
      br.map (·.year) := by
    rw [List.map_map]
    rfl
  have hyg : ((br.map fun r =>
      (⟨r.year, coerceNum r.capex, coerceNum r.opex⟩ : SpecHistRow)).map
        (·.year)) = br.map (·.year) := by
    rw [List.map_map]
    rfl
  rw [hyf, hyg]
  apply List.map_congr_left
  intro y _
  simp only [GroupedRow.mk.injEq]
  refine ⟨trivial, ?_, ?_⟩
  · rw [List.filter_map, List.filter_map, List.map_map, List.map_map]
    rw [List.filter_congr (fun r _ => rfl :
        ∀ r ∈ br, ((fun s : HistRow => decide (s.year = y)) ∘ fun r =>
          (⟨r.year, coerce0 r.capex, coerce0 r.opex⟩ : HistRow)) r =
          (fun r : NumRow => decide (r.year = y)) r)]
    rw [List.filter_congr (fun r _ => rfl :
        ∀ r ∈ br, ((fun s : SpecHistRow => decide (s.year = y)) ∘ fun r =>
          (⟨r.year, coerceNum r.capex, coerceNum r.opex⟩ : SpecHistRow)) r =
          (fun r : NumRow => decide (r.year = y)) r)]
    exact sum_map_getD_eq_sum_reduceOption
      (br.filter fun r => decide (r.year = y)) (fun r => coerceNum r.capex)
  · rw [List.filter_map, List.filter_map, List.map_map, List.map_map]
    rw [List.filter_congr (fun r _ => rfl :
        ∀ r ∈ br, ((fun s : HistRow => decide (s.year = y)) ∘ fun r =>
          (⟨r.year, coerce0 r.capex, coerce0 r.opex⟩ : HistRow)) r =
          (fun r : NumRow => decide (r.year = y)) r)]
    rw [List.filter_congr (fun r _ => rfl :
        ∀ r ∈ br, ((fun s : SpecHistRow => decide (s.year = y)) ∘ fun r =>
          (⟨r.year, coerceNum r.capex, coerceNum r.opex⟩ : SpecHistRow)) r =
          (fun r : NumRow => decide (r.year = y)) r)]
    exact sum_map_getD_eq_sum_reduceOption
      (br.filter fun r => decide (r.year = y)) (fun r => coerceNum r.opex)
